import Mathlib

/-!
Shallow embedding of the contributions-table and product-edit-drawer core of the
dashboard repository.

JavaScript strings are embedded as `List Char` so that every string operation the
code uses (`toLowerCase`, `trim`, `includes`, `===`) is an executable Lean
function on character lists.  Component state updates are embedded as explicit
state-transition functions, network handlers as functions from an outcome of the
single network call to the resulting component state plus an effect record
(number of calls fired, visible toasts, close/refresh callback invocations).
-/

/-- A JavaScript string, embedded as its list of characters. -/
abbrev JsStr := List Char

/-- `String.prototype.toLowerCase` (ASCII case mapping, as used by the code on
ASCII names and queries). -/
def jsToLower (s : JsStr) : JsStr := s.map Char.toLower

/-- `String.prototype.trim`: drop whitespace from both ends. -/
def jsTrim (s : JsStr) : JsStr :=
  ((s.dropWhile Char.isWhitespace).reverse.dropWhile Char.isWhitespace).reverse

/-- `String.prototype.includes`: substring containment (true for the empty
needle). -/
def jsIncludes (s sub : JsStr) : Bool :=
  s.tails.any (fun t => sub.isPrefixOf t)

/-- `Array.prototype.slice(f, t)` on a list: the elements with indices in
`[f, t)` (for `0 ≤ f ≤ t`, which is how the table calls it). -/
def jsSlice {α : Type} (l : List α) (f t : Nat) : List α :=
  (l.take t).drop f

/-- One row of the contributions table (`Contribution` in `types.ts`).  The
`status` field is a runtime string: the TypeScript union is erased at runtime,
and the badge renderer has a default branch for values outside it. -/
structure Contribution where
  description : JsStr
  id : Nat
  name : JsStr
  propertiesCount : Nat
  status : JsStr
deriving DecidableEq

/-- The two sortable column accessors of the table (`name` and
`propertiesCount` are the only columns declared `sortable: true`). -/
inductive SortKey where
  | name
  | propertiesCount
deriving DecidableEq

/-- `DataTableSortStatus.direction`. -/
inductive SortDir where
  | asc
  | desc
deriving DecidableEq

/-- Stable ascending sort by a key into a linear order, modelling lodash
`sortBy` (documented stable): each element is tagged with its original index,
the tagged list is sorted by the lexicographic order (key value, then original
index), and the tags are dropped.  Ties on the key therefore keep their
original relative order. -/
def stableSortBy {α κ : Type} [LinearOrder κ] (key : α → κ) (l : List α) : List α :=
  (l.enum.insertionSort (fun p q => toLex (key p.2, p.1) ≤ toLex (key q.2, q.1))).map Prod.snd

/-- A true stable descending sort by a key: descending on the key value,
original index order among ties.  This is the `true descending stable sort`
the spec compares the code against; the code itself never computes it. -/
def stableSortByDesc {α κ : Type} [LinearOrder κ] (key : α → κ) (l : List α) : List α :=
  (l.enum.insertionSort (fun p q =>
    toLex (OrderDual.toDual (key p.2), p.1) ≤ toLex (OrderDual.toDual (key q.2), q.1))).map Prod.snd

/-- `sortBy(filtered, sortStatus.columnAccessor)` dispatched on the two
sortable accessors. -/
def sortAsc (k : SortKey) (l : List Contribution) : List Contribution :=
  match k with
  | .name => stableSortBy (fun c => c.name) l
  | .propertiesCount => stableSortBy (fun c => c.propertiesCount) l

/-- True stable descending sort of contributions by a sort key (spec-side
comparison point, not computed by the code). -/
def sortDescStable (k : SortKey) (l : List Contribution) : List Contribution :=
  match k with
  | .name => stableSortByDesc (fun c => c.name) l
  | .propertiesCount => stableSortByDesc (fun c => c.propertiesCount) l

/-- Whether two contributions are tied on (have equal values of) a sort key. -/
def tiedOn (k : SortKey) (a b : Contribution) : Prop :=
  match k with
  | .name => a.name = b.name
  | .propertiesCount => a.propertiesCount = b.propertiesCount

instance (k : SortKey) (a b : Contribution) : Decidable (tiedOn k a b) := by
  unfold tiedOn
  cases k <;> infer_instance

/-- The filter callback of the recompute effect in `ContributionsTable.tsx`
(lines 270-284): reject when the query is nonempty and the lowercased name
does not contain the trimmed lowercased query; reject when the selected-status
list is nonempty and no selected status equals the record status; keep
otherwise. -/
def keepRecord (q : JsStr) (sel : List JsStr) (c : Contribution) : Bool :=
  if (!q.isEmpty) && !(jsIncludes (jsToLower c.name) (jsToLower (jsTrim q))) then false
  else if (!sel.isEmpty) && !(sel.any (fun s => s == c.status)) then false
  else true

/-- Lines 267-285: the filter callback only runs under the truthiness guard
`if (debouncedQuery || selectedStatuses.length)`; otherwise the full record
array is used unfiltered. -/
def filteredRecords (data : List Contribution) (q : JsStr) (sel : List JsStr) :
    List Contribution :=
  if (!q.isEmpty) || (!sel.isEmpty) then data.filter (keepRecord q sel) else data

/-- Lines 287-291: stable ascending sort by the accessor, reversed in place
when the direction is descending. -/
def sortedRecords (k : SortKey) (dir : SortDir) (l : List Contribution) : List Contribution :=
  match dir with
  | .asc => sortAsc k l
  | .desc => (sortAsc k l).reverse

/-- The recompute effect of `ContributionsTable` (lines 262-297): filter, then
sort, then `slice(from, to)` with `from = (page - 1) * pageSize` and
`to = from + pageSize`. -/
def visibleRecords (data : List Contribution) (q : JsStr) (sel : List JsStr)
    (k : SortKey) (dir : SortDir) (page size : Nat) : List Contribution :=
  jsSlice (sortedRecords k dir (filteredRecords data q sel))
    ((page - 1) * size) ((page - 1) * size + size)

/-- The `totalRecords` prop passed to the data table (lines 313-317): the
length of the current `records` state when a query or status filter is active,
the full data length otherwise. -/
def totalRecords (data : List Contribution) (q : JsStr) (sel : List JsStr)
    (k : SortKey) (dir : SortDir) (page size : Nat) : Nat :=
  if (!q.isEmpty) || (!sel.isEmpty) then
    (visibleRecords data q sel k dir page size).length
  else data.length

/-- Spec-side filter predicate, following the spec words: keep a record iff
(the query is empty OR the lowercased name contains the trimmed lowercased
query) AND (the selected-status set is empty OR the status is a member). -/
def spec_keepRecord (q : JsStr) (sel : List JsStr) (c : Contribution) : Bool :=
  (q.isEmpty || jsIncludes (jsToLower c.name) (jsToLower (jsTrim q))) &&
  (sel.isEmpty || sel.any (fun s => s == c.status))

/-- Spec-side pipeline, following the spec words: filter with the iff
predicate, stable-sort ascending by the key (reversing when descending), then
slice the index range `[(pageIndex-1)*pageSize, pageIndex*pageSize)`. -/
def spec_visiblePage (data : List Contribution) (q : JsStr) (sel : List JsStr)
    (k : SortKey) (dir : SortDir) (page size : Nat) : List Contribution :=
  let filtered := data.filter (spec_keepRecord q sel)
  let sorted :=
    match dir with
    | .asc => sortAsc k filtered
    | .desc => (sortAsc k filtered).reverse
  (sorted.take (page * size)).drop ((page - 1) * size)

/-- Spec-side `totalMatching`: the count of records satisfying the active
text/status filters. -/
def spec_totalMatching (data : List Contribution) (q : JsStr) (sel : List JsStr) : Nat :=
  (data.filter (spec_keepRecord q sel)).length

/-- The mutable query state owned by the table controller. -/
structure TableQueryState where
  page : Nat
  pageSize : Nat
  query : JsStr
  selectedStatuses : List JsStr
  sortKey : SortKey
  sortDir : SortDir
deriving DecidableEq

/-- The allowed page-size options (`PAGE_SIZES = [5, 10, 20]`). -/
def PAGE_SIZES : List Nat := [5, 10, 20]

/-- The composite state transition for a page-size change:
`onRecordsPerPageChange={setPageSize}` followed by the
`useEffect(() => setPage(1), [pageSize])` at lines 258-260, which runs before
the recompute effect re-renders the steady-state page. -/
def setPageSizeEvent (s : TableQueryState) (n : Nat) : TableQueryState :=
  { s with pageSize := n, page := 1 }

/-- The visible page derived from a full query state. -/
def visibleFromState (data : List Contribution) (s : TableQueryState) : List Contribution :=
  visibleRecords data s.query s.selectedStatuses s.sortKey s.sortDir s.page s.pageSize

/-- The local state of one `BuscarDeudaButton` (lines 111-162). -/
structure DeudaState where
  progress : Nat
  running : Bool
  done : Bool
deriving DecidableEq

/-- Events of the per-row search action: a click on the button, or one firing
of the 100 ms interval. -/
inductive DeudaEvent where
  | click
  | tick
deriving DecidableEq

/-- Initial state: `progress = 0`, not running, not done. -/
def deudaInit : DeudaState := ⟨0, false, false⟩

/-- One step of the per-row search action.  A click is a no-op while running
or done because the button carries `disabled={running || done}`; otherwise it
resets progress and starts the run (`handleClick` plus the `[running]`
effect).  A tick only exists while running (the interval is started by the
`[running]` effect and cleared otherwise): at `progress ≥ 100` it clears the
interval, stops the run and marks it done at 100; below 100 it adds the fixed
increment 2. -/
def deudaStep (s : DeudaState) : DeudaEvent → DeudaState
  | .click =>
      if s.running || s.done then s
      else { progress := 0, running := true, done := false }
  | .tick =>
      if s.running then
        if s.progress ≥ 100 then { progress := 100, running := false, done := true }
        else { s with progress := s.progress + 2 }
      else s

/-- States of the button reachable from its initial state by clicks and
interval ticks. -/
inductive DeudaReach : DeudaState → Prop where
  | init : DeudaReach deudaInit
  | step (s : DeudaState) (e : DeudaEvent) : DeudaReach s → DeudaReach (deudaStep s e)

/-- The editable form of the product drawer (`form.values`). -/
structure FormValues where
  title : JsStr
  description : JsStr
  sku : JsStr
  categoryId : JsStr
  price : Nat
  quantityInStock : Nat
  isActive : Bool
  status : Nat
deriving DecidableEq

/-- Component state of the drawer relevant to submit/delete: the form values
and the loading flag. -/
structure DrawerState where
  form : FormValues
  loading : Bool
deriving DecidableEq

/-- The externally observable effects of one handler run. -/
structure Effects where
  networkCalls : Nat
  toasts : List (String × String × String)
  closeCalls : Nat
  refreshCalls : Nat
deriving DecidableEq

/-- No network call, no toast, no callback. -/
def noEffects : Effects := ⟨0, [], 0, 0⟩

/-- Outcome of the single `fetch` a handler performs: a 2xx response, a
non-2xx response whose parsed body has an optional `error` field, or a thrown
value (transport failure or body-parse failure); `some m` is a thrown `Error`
with message `m`, `none` a thrown non-`Error` value. -/
inductive FetchOutcome where
  | success
  | httpError (errorField : Option String)
  | transportError (errMsg : Option String)
deriving DecidableEq

/-- JavaScript `x || d` on an optional string field: the field when present
and truthy (nonempty), the default otherwise. -/
def jsOr (e : Option String) (d : String) : String :=
  match e with
  | some s => if s = "" then d else s
  | none => d

/-- `handleSubmit` of `EditProductDrawer` (part_001 lines 125-177): guard
`if (!product || !isCreator || !canEditProduct) return;`, then one `PUT`;
on 2xx a success toast, `onClose` when provided, `onProductUpdated` when
provided; on non-2xx a thrown `Error(data.error || generic)`; any thrown value
becomes a red toast with its message when it is an `Error`, the generic
message otherwise; `finally` clears the loading flag.  The handler never
writes the form values. -/
def handleSubmit (hasProduct isCreator canEditProduct : Bool)
    (onCloseProvided onRefreshProvided : Bool)
    (outcome : FetchOutcome) (st : DrawerState) : DrawerState × Effects :=
  if (!hasProduct) || (!isCreator) || (!canEditProduct) then (st, noEffects)
  else
    match outcome with
    | .success =>
        ({ st with loading := false },
         { networkCalls := 1,
           toasts := [("Success", "Product updated successfully", "green")],
           closeCalls := if onCloseProvided then 1 else 0,
           refreshCalls := if onRefreshProvided then 1 else 0 })
    | .httpError e =>
        ({ st with loading := false },
         { networkCalls := 1,
           toasts := [("Error", jsOr e "Failed to update product", "red")],
           closeCalls := 0,
           refreshCalls := 0 })
    | .transportError m =>
        ({ st with loading := false },
         { networkCalls := 1,
           toasts := [("Error", m.getD "Failed to update product", "red")],
           closeCalls := 0,
           refreshCalls := 0 })

/-- `handleDelete` of `EditProductDrawer` (part_001 lines 179-228): guard
`if (!product || !isCreator) return;`, then `if (!window.confirm(...)) return;`,
then one `DELETE`; same success/failure shape as the update handler with the
delete messages. -/
def handleDelete (hasProduct isCreator confirmed : Bool)
    (onCloseProvided onRefreshProvided : Bool)
    (outcome : FetchOutcome) (st : DrawerState) : DrawerState × Effects :=
  if (!hasProduct) || (!isCreator) then (st, noEffects)
  else if !confirmed then (st, noEffects)
  else
    match outcome with
    | .success =>
        ({ st with loading := false },
         { networkCalls := 1,
           toasts := [("Success", "Product deleted successfully", "green")],
           closeCalls := if onCloseProvided then 1 else 0,
           refreshCalls := if onRefreshProvided then 1 else 0 })
    | .httpError e =>
        ({ st with loading := false },
         { networkCalls := 1,
           toasts := [("Error", jsOr e "Failed to delete product", "red")],
           closeCalls := 0,
           refreshCalls := 0 })
    | .transportError m =>
        ({ st with loading := false },
         { networkCalls := 1,
           toasts := [("Error", m.getD "Failed to delete product", "red")],
           closeCalls := 0,
           refreshCalls := 0 })

/-- `StatusBadge` (lines 33-60): the switch over the runtime status string,
returning the badge color and text; the default branch renders gray and
`Sin estado`. -/
def statusBadge (status : JsStr) : String × String :=
  if status == "searched".toList then ("orange", "Buscado")
  else if status == "pending".toList then ("blue", "Pendiente")
  else if status == "paid".toList then ("green", "Pagado")
  else ("gray", "Sin estado")

/-- Sample form values for witness instantiations. -/
def sampleForm : FormValues := ⟨[], [], [], [], 0, 0, true, 1⟩

/-- Sample drawer state for witness instantiations. -/
def sampleDrawer : DrawerState := ⟨sampleForm, false⟩

/-- The record array of the spec example:
`[{id:1,name:"Alpha",status:"pending"},{id:2,name:"Beta",status:"paid"}]`. -/
def exampleData : List Contribution :=
  [⟨[], 1, "Alpha".toList, 0, "pending".toList⟩,
   ⟨[], 2, "Beta".toList, 0, "paid".toList⟩]

/-- Six records whose names all contain the letter `a`, used as the failing
input for the reported pagination total. -/
def sixMatching : List Contribution :=
  [⟨[], 1, "a1".toList, 0, "pending".toList⟩,
   ⟨[], 2, "a2".toList, 0, "pending".toList⟩,
   ⟨[], 3, "a3".toList, 0, "paid".toList⟩,
   ⟨[], 4, "a4".toList, 0, "paid".toList⟩,
   ⟨[], 5, "a5".toList, 0, "searched".toList⟩,
   ⟨[], 6, "a6".toList, 0, "searched".toList⟩]

/-! ### Sorting lemmas -/

theorem pairwise_combine {α : Type} {R S T : α → α → Prop} (h : ∀ a b, R a b → S a b → T a b) :
    ∀ {l : List α}, l.Pairwise R → l.Pairwise S → l.Pairwise T := by
  intro l hr hs
  induction l with
  | nil => exact List.Pairwise.nil
  | cons x xs ih =>
    rw [List.pairwise_cons] at hr hs ⊢
    exact ⟨fun b hb => h _ _ (hr.1 b hb) (hs.1 b hb), ih hr.2 hs.2⟩

theorem stableSortBy_perm {α κ : Type} [LinearOrder κ] (key : α → κ) (l : List α) :
    List.Perm (stableSortBy key l) l := by
  have h := (List.perm_insertionSort
    (fun p q : Nat × α => toLex (key p.2, p.1) ≤ toLex (key q.2, q.1)) l.enum).map Prod.snd
  simpa [stableSortBy, List.enum_map_snd] using h

theorem stableSortByDesc_perm {α κ : Type} [LinearOrder κ] (key : α → κ) (l : List α) :
    List.Perm (stableSortByDesc key l) l := by
  have h := (List.perm_insertionSort
    (fun p q : Nat × α =>
      toLex (OrderDual.toDual (key p.2), p.1) ≤ toLex (OrderDual.toDual (key q.2), q.1))
    l.enum).map Prod.snd
  simpa [stableSortByDesc, List.enum_map_snd] using h

theorem stableSortBy_sorted {α κ : Type} [LinearOrder κ] (key : α → κ) (l : List α) :
    (stableSortBy key l).Pairwise (fun a b => key a ≤ key b) := by
  haveI : IsTotal (Nat × α) (fun p q => toLex (key p.2, p.1) ≤ toLex (key q.2, q.1)) :=
    ⟨fun _ _ => le_total _ _⟩
  haveI : IsTrans (Nat × α) (fun p q => toLex (key p.2, p.1) ≤ toLex (key q.2, q.1)) :=
    ⟨fun _ _ _ h1 h2 => le_trans h1 h2⟩
  have h := List.sorted_insertionSort
    (fun p q : Nat × α => toLex (key p.2, p.1) ≤ toLex (key q.2, q.1)) l.enum
  unfold stableSortBy
  rw [List.pairwise_map]
  refine h.imp ?_
  intro p q hpq
  rcases (Prod.Lex.le_iff _ _).mp hpq with h1 | ⟨h1, _⟩
  · exact le_of_lt h1
  · exact le_of_eq h1

theorem stableSortByDesc_sorted {α κ : Type} [LinearOrder κ] (key : α → κ) (l : List α) :
    (stableSortByDesc key l).Pairwise (fun a b => key b ≤ key a) := by
  haveI : IsTotal (Nat × α) (fun p q =>
      toLex (OrderDual.toDual (key p.2), p.1) ≤ toLex (OrderDual.toDual (key q.2), q.1)) :=
    ⟨fun _ _ => le_total _ _⟩
  haveI : IsTrans (Nat × α) (fun p q =>
      toLex (OrderDual.toDual (key p.2), p.1) ≤ toLex (OrderDual.toDual (key q.2), q.1)) :=
    ⟨fun _ _ _ h1 h2 => le_trans h1 h2⟩
  have h := List.sorted_insertionSort
    (fun p q : Nat × α =>
      toLex (OrderDual.toDual (key p.2), p.1) ≤ toLex (OrderDual.toDual (key q.2), q.1)) l.enum
  unfold stableSortByDesc
  rw [List.pairwise_map]
  refine h.imp ?_
  intro p q hpq
  rcases (Prod.Lex.le_iff _ _).mp hpq with h1 | ⟨h1, _⟩
  · exact le_of_lt (OrderDual.toDual_lt_toDual.mp h1)
  · exact le_of_eq (OrderDual.toDual_inj.mp h1).symm

theorem stableSortBy_reverse_eq_desc {α κ : Type} [LinearOrder κ] (key : α → κ) (l : List α)
    (h : l.Pairwise (fun a b => key a ≠ key b)) :
    (stableSortBy key l).reverse = stableSortByDesc key l := by
  haveI : IsAntisymm α (fun a b => key b < key a) :=
    ⟨fun _ _ h1 h2 => absurd h1 (lt_asymm h2)⟩
  have p1 := stableSortBy_perm key l
  have p2 := stableSortByDesc_perm key l
  have hne1 : (stableSortBy key l).Pairwise (fun a b => key a ≠ key b) :=
    (p1.pairwise_iff (fun hab => Ne.symm hab)).mpr h
  have hne2 : (stableSortByDesc key l).Pairwise (fun a b => key a ≠ key b) :=
    (p2.pairwise_iff (fun hab => Ne.symm hab)).mpr h
  have s1 : (stableSortBy key l).Pairwise (fun a b => key a < key b) :=
    pairwise_combine (fun _ _ hle hne => lt_of_le_of_ne hle hne)
      (stableSortBy_sorted key l) hne1
  have s2 : (stableSortByDesc key l).Pairwise (fun a b => key b < key a) :=
    pairwise_combine (fun _ _ hle hne => lt_of_le_of_ne hle (Ne.symm hne))
      (stableSortByDesc_sorted key l) hne2
  have s1r : (stableSortBy key l).reverse.Pairwise (fun a b => key b < key a) :=
    List.pairwise_reverse.mpr s1
  exact List.eq_of_perm_of_sorted
    (((stableSortBy key l).reverse_perm.trans p1).trans p2.symm) s1r s2

theorem stableSortBy_pair_tie {α κ : Type} [LinearOrder κ] (key : α → κ) (a b : α)
    (h : key a = key b) :
    stableSortBy key [a, b] = [a, b] ∧ stableSortByDesc key [a, b] = [a, b] := by
  have hab : toLex (key a, 0) ≤ toLex (key b, 1) :=
    (Prod.Lex.le_iff _ _).mpr (Or.inr ⟨h, by omega⟩)
  have hab2 : toLex (OrderDual.toDual (key a), (0 : Nat)) ≤ toLex (OrderDual.toDual (key b), 1) :=
    (Prod.Lex.le_iff _ _).mpr (Or.inr ⟨congrArg OrderDual.toDual h, by omega⟩)
  constructor
  · simp [stableSortBy, List.enum, List.enumFrom, hab]
  · simp [stableSortByDesc, List.enum, List.enumFrom, hab2]

theorem sortAsc_perm (k : SortKey) (l : List Contribution) : List.Perm (sortAsc k l) l := by
  cases k
  · exact stableSortBy_perm _ l
  · exact stableSortBy_perm _ l

theorem sortedRecords_mem {k : SortKey} {dir : SortDir} {l : List Contribution}
    {c : Contribution} (hc : c ∈ sortedRecords k dir l) : c ∈ l := by
  cases dir with
  | asc => exact (sortAsc_perm k l).subset hc
  | desc => exact (sortAsc_perm k l).subset (List.mem_reverse.mp hc)

/-! ### Filter refinement -/

theorem keepRecord_eq_spec (q : JsStr) (sel : List JsStr) (c : Contribution) :
    keepRecord q sel c = spec_keepRecord q sel c := by
  unfold keepRecord spec_keepRecord
  cases hq : q.isEmpty <;>
    cases hi : jsIncludes (jsToLower c.name) (jsToLower (jsTrim q)) <;>
      cases hs : sel.isEmpty <;>
        cases ha : sel.any (fun s => s == c.status) <;>
          simp [hq, hi, hs, ha]

theorem filteredRecords_eq_spec (data : List Contribution) (q : JsStr) (sel : List JsStr) :
    filteredRecords data q sel = data.filter (spec_keepRecord q sel) := by
  unfold filteredRecords
  by_cases h : ((!q.isEmpty) || (!sel.isEmpty)) = true
  · rw [if_pos h]
    exact List.filter_congr (fun c _ => keepRecord_eq_spec q sel c)
  · rw [if_neg h]
    have hq : q.isEmpty = true := by
      cases hqe : q.isEmpty
      · simp [hqe] at h
      · rfl
    have hs : sel.isEmpty = true := by
      cases hse : sel.isEmpty
      · simp [hse] at h
      · rfl
    symm
    rw [List.filter_eq_self]
    intro c _
    simp [spec_keepRecord, hq, hs]

/-- Claim C1: for every record array and query state with a positive page
index, the visible page computed by the table effect equals the spec pipeline:
filter with the iff predicate, stable-sort ascending by the sort key reversing
when descending, then slice `[(pageIndex-1)*pageSize, pageIndex*pageSize)`. -/
theorem visibleRecords_refines_spec (data : List Contribution) (q : JsStr)
    (sel : List JsStr) (k : SortKey) (dir : SortDir) (page size : Nat) (hp : 1 ≤ page) :
    visibleRecords data q sel k dir page size = spec_visiblePage data q sel k dir page size := by
  have harith : (page - 1) * size + size = page * size := by
    cases page with
    | zero => omega
    | succ p => simp [Nat.succ_sub_one, Nat.succ_mul]
  simp only [visibleRecords, spec_visiblePage, jsSlice, sortedRecords]
  rw [filteredRecords_eq_spec, harith]

/-- Witness for C1 at a concrete input with page index 1. -/
theorem visibleRecords_refines_spec_witness :
    visibleRecords exampleData "al".toList [] .name .asc 1 10 =
      spec_visiblePage exampleData "al".toList [] .name .asc 1 10 :=
  visibleRecords_refines_spec exampleData "al".toList [] .name .asc 1 10 (by decide)

/-- Claim C2: the engine returns at most `pageSize` records, each satisfying
the active text and status filters; and on the spec example (query `al`,
no status filter, name ascending, page 1 of size 10) the output is exactly
the record with id 1. -/
theorem visiblePage_bounded_and_filtered :
    (∀ (data : List Contribution) (q : JsStr) (sel : List JsStr) (k : SortKey)
      (dir : SortDir) (page size : Nat),
      (visibleRecords data q sel k dir page size).length ≤ size ∧
      ∀ c, c ∈ visibleRecords data q sel k dir page size → spec_keepRecord q sel c = true) ∧
    visibleRecords exampleData "al".toList [] .name .asc 1 10 =
      [⟨[], 1, "Alpha".toList, 0, "pending".toList⟩] := by
  constructor
  · intro data q sel k dir page size
    constructor
    · unfold visibleRecords jsSlice
      rw [List.length_drop, List.length_take]
      omega
    · intro c hc
      have hc1 : c ∈ sortedRecords k dir (filteredRecords data q sel) := by
        unfold visibleRecords jsSlice at hc
        exact ((List.drop_sublist _ _).trans (List.take_sublist _ _)).subset hc
      have hc2 : c ∈ filteredRecords data q sel := sortedRecords_mem hc1
      unfold filteredRecords at hc2
      by_cases h : ((!q.isEmpty) || (!sel.isEmpty)) = true
      · rw [if_pos h] at hc2
        have := List.of_mem_filter hc2
        rwa [keepRecord_eq_spec] at this
      · have hq : q.isEmpty = true := by
          cases hqe : q.isEmpty
          · simp [hqe] at h
          · rfl
        have hs : sel.isEmpty = true := by
          cases hse : sel.isEmpty
          · simp [hse] at h
          · rfl
        simp [spec_keepRecord, hq, hs]
  · decide

/-- Witness for C2: the record on the example page satisfies the active
filters. -/
theorem visiblePage_bounded_and_filtered_witness :
    spec_keepRecord "al".toList [] ⟨[], 1, "Alpha".toList, 0, "pending".toList⟩ = true :=
  (visiblePage_bounded_and_filtered.1 exampleData "al".toList [] .name .asc 1 10).2
    ⟨[], 1, "Alpha".toList, 0, "pending".toList⟩ (by decide)

/-- Claim C3 (code bug): on six records that all match the query `a`, with
page size 5 and page 1, the `totalRecords` the table reports is the visible
page length 5, while the total number of records matching the active filters
is 6. -/
theorem totalRecords_is_page_length_not_total_matching :
    totalRecords sixMatching "a".toList [] .name .asc 1 5 = 5 ∧
    spec_totalMatching sixMatching "a".toList [] = 6 :=
  ⟨by decide, by decide⟩

/-! ### Guarded edit/delete workflow -/

/-- Claim C4: the update submit fires a network call only when the user is the
product creator and holds the edit permission; with `isCreator = false` the
handler returns with no network call, no toast, no callback and unchanged
state. -/
theorem submit_requires_authorization (hasProduct isCreator canEdit ocp orp : Bool)
    (o : FetchOutcome) (st : DrawerState) :
    ((handleSubmit hasProduct isCreator canEdit ocp orp o st).2.networkCalls ≠ 0 →
      isCreator = true ∧ canEdit = true) ∧
    (isCreator = false →
      handleSubmit hasProduct isCreator canEdit ocp orp o st = (st, noEffects)) := by
  cases hasProduct <;> cases isCreator <;> cases canEdit <;> cases o <;>
    simp [handleSubmit, noEffects]

/-- Witness for C4: a concrete submit with `isCreator = false` is a no-op. -/
theorem submit_requires_authorization_witness :
    handleSubmit true false true true true .success sampleDrawer = (sampleDrawer, noEffects) :=
  (submit_requires_authorization true false true true true .success sampleDrawer).2 rfl

/-- Claim C5: the delete handler fires a network call only when the user is
the creator and the confirmation step returned affirmative; a confirmed
creator delete fires exactly one DELETE call whatever the outcome; and with a
2xx outcome it closes the editor once and invokes the refresh callback
once. -/
theorem delete_requires_creator_and_confirmation (hp ic conf ocp orp : Bool)
    (o : FetchOutcome) (st : DrawerState) :
    ((handleDelete hp ic conf ocp orp o st).2.networkCalls ≠ 0 →
      ic = true ∧ conf = true) ∧
    (hp = true → ic = true → conf = true →
      (handleDelete hp ic conf ocp orp o st).2.networkCalls = 1) ∧
    (hp = true → ic = true → conf = true → ocp = true → orp = true → o = .success →
      (handleDelete hp ic conf ocp orp o st).2.closeCalls = 1 ∧
      (handleDelete hp ic conf ocp orp o st).2.refreshCalls = 1) := by
  cases hp <;> cases ic <;> cases conf <;> cases ocp <;> cases orp <;> cases o <;>
    simp [handleDelete, noEffects]

/-- Witness for C5: a confirmed creator delete fires exactly one call even on
a failing outcome, and with a 2xx response closes the editor once and fires
the refresh callback once. -/
theorem delete_requires_creator_and_confirmation_witness :
    (handleDelete true true true true true (.httpError none) sampleDrawer).2.networkCalls = 1 ∧
    (handleDelete true true true true true .success sampleDrawer).2.closeCalls = 1 ∧
    (handleDelete true true true true true .success sampleDrawer).2.refreshCalls = 1 :=
  ⟨(delete_requires_creator_and_confirmation true true true true true (.httpError none)
      sampleDrawer).2.1 rfl rfl rfl,
   ((delete_requires_creator_and_confirmation true true true true true .success
      sampleDrawer).2.2 rfl rfl rfl rfl rfl rfl).1,
   ((delete_requires_creator_and_confirmation true true true true true .success
      sampleDrawer).2.2 rfl rfl rfl rfl rfl rfl).2⟩

/-- Claim C6: on every failing update (non-2xx response or thrown transport
error) the form values are unchanged, the editor close callback and refresh
callback are not invoked, and a red toast is shown carrying the server body's
error text when it is a nonempty string, the generic text when the body has
no usable error, and a thrown error's own message when the failure never
produced a response body. -/
theorem update_failure_behavior (ocp orp : Bool) (st : DrawerState) (o : FetchOutcome)
    (ho : o ≠ .success) :
    (handleSubmit true true true ocp orp o st).1.form = st.form ∧
    (handleSubmit true true true ocp orp o st).2.closeCalls = 0 ∧
    (handleSubmit true true true ocp orp o st).2.refreshCalls = 0 ∧
    (∀ s : String, o = .httpError (some s) → s ≠ "" →
      (handleSubmit true true true ocp orp o st).2.toasts = [("Error", s, "red")]) ∧
    ((o = .httpError none ∨ o = .httpError (some "") ∨ o = .transportError none) →
      (handleSubmit true true true ocp orp o st).2.toasts =
        [("Error", "Failed to update product", "red")]) ∧
    (∀ m : String, o = .transportError (some m) →
      (handleSubmit true true true ocp orp o st).2.toasts = [("Error", m, "red")]) := by
  cases o with
  | success => exact absurd rfl ho
  | httpError e =>
    cases e with
    | none => simp [handleSubmit, jsOr]
    | some s =>
      by_cases hs : s = ""
      · subst hs
        simp [handleSubmit, jsOr]
      · simp [handleSubmit, jsOr, hs]
  | transportError m =>
    cases m with
    | none => simp [handleSubmit]
    | some s => simp [handleSubmit]

/-- Witness for C6: a non-2xx response whose body carries `boom` yields a red
toast with exactly that message. -/
theorem update_failure_behavior_witness :
    (handleSubmit true true true true true (.httpError (some "boom")) sampleDrawer).2.toasts =
      [("Error", "boom", "red")] :=
  (update_failure_behavior true true sampleDrawer (.httpError (some "boom"))
    (by decide)).2.2.2.1 "boom" rfl (by decide)

/-! ### Table controller invariants -/

/-- Claim C8: changing the page size (to any allowed option) resets the page
index to 1, and the next visible page is computed at page 1 with the new
size. -/
theorem pageSize_change_resets_page (s : TableQueryState) (n : Nat)
    (data : List Contribution) (_hn : n ∈ PAGE_SIZES) :
    (setPageSizeEvent s n).page = 1 ∧
    visibleFromState data (setPageSizeEvent s n) =
      visibleRecords data s.query s.selectedStatuses s.sortKey s.sortDir 1 n :=
  ⟨rfl, rfl⟩

/-- Witness for C8 at a state on page 3 switching to page size 10. -/
theorem pageSize_change_resets_page_witness :
    (setPageSizeEvent ⟨3, 5, [], [], .name, .asc⟩ 10).page = 1 :=
  (pageSize_change_resets_page ⟨3, 5, [], [], .name, .asc⟩ 10 [] (by decide)).1

/-! ### Status badge -/

/-- Claim C10: the badge renderer is total: `searched` maps to orange
`Buscado`, `pending` to blue `Pendiente`, `paid` to green `Pagado`, and every
other runtime status string renders the gray `Sin estado` badge. -/
theorem statusBadge_total :
    statusBadge "searched".toList = ("orange", "Buscado") ∧
    statusBadge "pending".toList = ("blue", "Pendiente") ∧
    statusBadge "paid".toList = ("green", "Pagado") ∧
    ∀ s : JsStr, s ≠ "searched".toList → s ≠ "pending".toList → s ≠ "paid".toList →
      statusBadge s = ("gray", "Sin estado") := by
  refine ⟨by decide, by decide, by decide, ?_⟩
  intro s h1 h2 h3
  simp only [statusBadge, beq_iff_eq]
  rw [if_neg h1, if_neg h2, if_neg h3]

/-- Witness for C10: a status outside the declared enumeration renders the
gray badge. -/
theorem statusBadge_total_witness :
    statusBadge "weird".toList = ("gray", "Sin estado") :=
  statusBadge_total.2.2.2 "weird".toList (by decide) (by decide) (by decide)

/-! ### Per-row search action -/

theorem deuda_invariant (s : DeudaState) (hs : DeudaReach s) :
    s.progress ≤ 100 ∧ s.progress % 2 = 0 ∧ (s.running = true → s.done = false) := by
  induction hs with
  | init => exact ⟨by decide, by decide, fun _ => rfl⟩
  | step s e _ ih =>
    obtain ⟨h100, heven, hrd⟩ := ih
    cases e with
    | click =>
      by_cases hg : (s.running || s.done) = true
      · have hstep : deudaStep s .click = s := by simp [deudaStep, hg]
        rw [hstep]
        exact ⟨h100, heven, hrd⟩
      · have hstep : deudaStep s .click = ⟨0, true, false⟩ := by simp [deudaStep, hg]
        rw [hstep]
        exact ⟨by decide, by decide, fun _ => rfl⟩
    | tick =>
      cases hr : s.running with
      | false =>
        have hstep : deudaStep s .tick = s := by simp [deudaStep, hr]
        rw [hstep]
        exact ⟨h100, heven, hrd⟩
      | true =>
        by_cases hp : s.progress ≥ 100
        · have hstep : deudaStep s .tick = ⟨100, false, true⟩ := by simp [deudaStep, hr, hp]
          rw [hstep]
          exact ⟨by decide, by decide, by simp⟩
        · have hstep : deudaStep s .tick = { s with progress := s.progress + 2 } := by
            simp [deudaStep, hr, hp]
          rw [hstep]
          refine ⟨?_, ?_, fun _ => hrd hr⟩
          · show s.progress + 2 ≤ 100
            omega
          · show (s.progress + 2) % 2 = 0
            omega

/-- Claim C9: every reachable state of the per-row search button keeps its
progress at most 100; a click while running is a no-op (so a second click
never resets the progress); once done the state absorbs every event (the
action is permanently disabled); a tick while running below 100 adds exactly
the fixed increment 2 and keeps the run going; a tick at 100 ends the run in
the done state; and no event moves a running state back to idle. -/
theorem buscarDeuda_state_machine (s : DeudaState) (hs : DeudaReach s) :
    s.progress ≤ 100 ∧
    (s.running = true → deudaStep s .click = s) ∧
    (s.done = true → ∀ e, deudaStep s e = s) ∧
    (s.running = true → s.progress < 100 →
      deudaStep s .tick = { s with progress := s.progress + 2 }) ∧
    (s.running = true → 100 ≤ s.progress → deudaStep s .tick = ⟨100, false, true⟩) ∧
    (s.running = true → ∀ e,
      (deudaStep s e).running = true ∨ (deudaStep s e).done = true) := by
  obtain ⟨h100, _heven, hrd⟩ := deuda_invariant s hs
  refine ⟨h100, ?_, ?_, ?_, ?_, ?_⟩
  · intro hr
    simp [deudaStep, hr]
  · intro hd e
    have hrun : s.running = false := by
      cases hr : s.running
      · rfl
      · rw [hrd hr] at hd
        exact absurd hd (by simp)
    cases e with
    | click => simp [deudaStep, hd]
    | tick => simp [deudaStep, hrun]
  · intro hr hlt
    simp [deudaStep, hr, Nat.not_le.mpr hlt]
  · intro hr hge
    simp [deudaStep, hr, hge]
  · intro hr e
    cases e with
    | click => simp [deudaStep, hr]
    | tick =>
      by_cases hp : s.progress ≥ 100 <;> simp [deudaStep, hr, hp]

/-- Witness for C9: the state right after the first click is reachable, and a
second click there is a no-op. -/
theorem buscarDeuda_state_machine_witness :
    deudaStep (deudaStep deudaInit .click) .click = deudaStep deudaInit .click :=
  (buscarDeuda_state_machine (deudaStep deudaInit .click)
    (DeudaReach.step deudaInit .click DeudaReach.init)).2.1 rfl

/-! ### Descending sort versus stable descending sort -/

/-- Counterexample to C7 as stated: on a list made of the same record twice,
the two records are tied on the sort key, yet reversing the stable ascending
sort still coincides with the true stable descending sort — coincidence is
not `exactly when` no two records are tied. -/
theorem desc_reverse_tie_counterexample :
    ((sortAsc .propertiesCount
        [⟨[], 7, "x".toList, 3, "pending".toList⟩,
         ⟨[], 7, "x".toList, 3, "pending".toList⟩]).reverse =
      sortDescStable .propertiesCount
        [⟨[], 7, "x".toList, 3, "pending".toList⟩,
         ⟨[], 7, "x".toList, 3, "pending".toList⟩]) ∧
    ¬ ([(⟨[], 7, "x".toList, 3, "pending".toList⟩ : Contribution),
        ⟨[], 7, "x".toList, 3, "pending".toList⟩].Pairwise
        (fun a b => ¬ tiedOn .propertiesCount a b)) :=
  ⟨by decide, by decide⟩

/-- Claim C7 as amended: the descending output is the reverse of the stable
ascending sort; absence of ties on the sort key is sufficient for it to
coincide with the true stable descending sort; and when two records tie on
the key, the reverse-of-ascending order puts them in reversed original order
while the stable descending sort preserves their original order (so the two
differ whenever such a tied pair has distinct contents) — but ties do not
make the orders differ in every case, e.g. a record repeated twice. -/
theorem desc_is_reverse_of_stable_asc (k : SortKey) (l : List Contribution) :
    sortedRecords k .desc l = (sortAsc k l).reverse ∧
    (l.Pairwise (fun a b => ¬ tiedOn k a b) → (sortAsc k l).reverse = sortDescStable k l) ∧
    (∀ a b : Contribution, tiedOn k a b →
      (sortAsc k [a, b]).reverse = [b, a] ∧ sortDescStable k [a, b] = [a, b]) := by
  refine ⟨rfl, ?_, ?_⟩
  · intro h
    cases k with
    | name => exact stableSortBy_reverse_eq_desc _ l h
    | propertiesCount => exact stableSortBy_reverse_eq_desc _ l h
  · intro a b hab
    cases k with
    | name =>
      obtain ⟨h1, h2⟩ := stableSortBy_pair_tie (fun c : Contribution => c.name) a b hab
      refine ⟨?_, ?_⟩
      · show (stableSortBy (fun c : Contribution => c.name) [a, b]).reverse = [b, a]
        rw [h1]
        rfl
      · exact h2
    | propertiesCount =>
      obtain ⟨h1, h2⟩ :=
        stableSortBy_pair_tie (fun c : Contribution => c.propertiesCount) a b hab
      refine ⟨?_, ?_⟩
      · show (stableSortBy (fun c : Contribution => c.propertiesCount) [a, b]).reverse = [b, a]
        rw [h1]
        rfl
      · exact h2

/-- Witness for C7 amended: on two records with distinct counts the reversed
ascending sort equals the stable descending sort. -/
theorem desc_is_reverse_of_stable_asc_witness :
    (sortAsc .propertiesCount
      [⟨[], 1, "x".toList, 2, "pending".toList⟩,
       ⟨[], 2, "y".toList, 9, "paid".toList⟩]).reverse =
      sortDescStable .propertiesCount
        [⟨[], 1, "x".toList, 2, "pending".toList⟩,
         ⟨[], 2, "y".toList, 9, "paid".toList⟩] :=
  (desc_is_reverse_of_stable_asc .propertiesCount
    [⟨[], 1, "x".toList, 2, "pending".toList⟩,
     ⟨[], 2, "y".toList, 9, "paid".toList⟩]).2.1 (by decide)
